import Mathlib

/-!
# Verification of the UPC-A barcode renderer

A shallow embedding of `upc-a-renderer.js`.  Codes and bar patterns are
`List Char`; JavaScript numbers used in layout geometry are exact rationals
(`ℚ`); thrown `Error`s become `Except UPCError`.  Each definition transcribes
the source function of the same name.
-/

deriving instance DecidableEq for Except

namespace UPCA

/-- `String(code).replace(/\D/g, '')`: keep only decimal digit characters. -/
def sanitize (s : List Char) : List Char := s.filter Char.isDigit

/-- `parseInt(c)` for a single digit character. -/
def digitVal (c : Char) : Nat := c.toNat - '0'.toNat

/-- `s.padStart(n, c)`: left-pad with `c` up to length `n`. -/
def padStart (n : Nat) (c : Char) (s : List Char) : List Char :=
  List.replicate (n - s.length) c ++ s

/-- The sanitize / left-pad / truncate preprocessing at the top of
`calculateChecksum` (lines 67–71 of the source). -/
def code11of (s : List Char) : List Char :=
  let c := sanitize s
  let c := if c.length < 11 then padStart 11 '0' c else c
  c.take 11

/-- Digit weight in the checksum loop: 3 at even 0-based index, 1 at odd. -/
def weight (i : Nat) : Nat := if i % 2 = 0 then 3 else 1

/-- `calculateChecksum` (source lines 66–80). -/
def calculateChecksum (code11 : List Char) : Nat :=
  let s := code11of code11
  let sum := (List.range 11).foldl
    (fun acc i => acc + digitVal (s.getD i '0') * weight i) 0
  (10 - sum % 10) % 10

/-- The `checksum` option: `'auto' | 'validate' | 'recalculate'`. -/
inductive ChecksumMode where
  | auto
  | validate
  | recalculate
deriving DecidableEq, Repr

/-- The two error conditions `normalizeInput` can throw. -/
inductive UPCError where
  | invalidChecksum (expected provided : Nat)
  | invalidLength
deriving DecidableEq, Repr

/-- The message of the thrown `Error`, as a character list. -/
def UPCError.message : UPCError → List Char
  | .invalidChecksum e p =>
      "Invalid UPC-A checksum: expected ".data ++ (toString e).data
        ++ ", got ".data ++ (toString p).data
  | .invalidLength => "UPC-A requires 11 or 12 digits".data

/-- `normalizeInput` (source lines 88–122). -/
def normalizeInput (code : List Char) (mode : ChecksumMode) :
    Except UPCError (List Char) :=
  let c := sanitize code
  if c.length = 11 then
    .ok (c ++ [Nat.digitChar (calculateChecksum c)])
  else if c.length = 12 then
    let providedCheck := digitVal (c.getD 11 '0')
    let calculatedCheck := calculateChecksum (c.take 11)
    match mode with
    | .validate =>
        if providedCheck ≠ calculatedCheck then
          .error (.invalidChecksum calculatedCheck providedCheck)
        else .ok c
    | .recalculate => .ok (c.take 11 ++ [Nat.digitChar calculatedCheck])
    | .auto => .ok (c.take 11 ++ [Nat.digitChar calculatedCheck])
  else if c.length < 11 then
    let c := padStart 11 '0' c
    .ok (c ++ [Nat.digitChar (calculateChecksum c)])
  else
    .error .invalidLength

/-- `L_CODES` (source lines 50–53). -/
def L_CODES : List (List Char) :=
  ["0001101".data, "0011001".data, "0010011".data, "0111101".data,
   "0100011".data, "0110001".data, "0101111".data, "0111011".data,
   "0110111".data, "0001011".data]

/-- `R_CODES` (source lines 54–57). -/
def R_CODES : List (List Char) :=
  ["1110010".data, "1100110".data, "1101100".data, "1000010".data,
   "1011100".data, "1001110".data, "1010000".data, "1000100".data,
   "1001000".data, "1110100".data]

/-- `encode` (source lines 168–192); returns `(encoding, fullCode)`. -/
def encode (code : List Char) (mode : ChecksumMode) :
    Except UPCError (List Char × List Char) :=
  match normalizeInput code mode with
  | .error e => .error e
  | .ok fullCode =>
    let left := ((List.range 6).map
      (fun i => L_CODES.getD (digitVal (fullCode.getD i '0')) [])).flatten
    let right := ((List.range 6).map
      (fun k => R_CODES.getD (digitVal (fullCode.getD (k + 6) '0')) [])).flatten
    .ok ("101".data ++ left ++ "01010".data ++ right ++ "101".data, fullCode)

/-- The `X-XXXXX-XXXXX-X` slicing in `formatUPC` (source lines 156–159). -/
def hyphenate (c : List Char) : List Char :=
  c.take 1 ++ "-".data ++ ((c.drop 1).take 5) ++ "-".data
    ++ ((c.drop 6).take 5) ++ "-".data ++ c.drop 11

/-- `formatUPC` (source lines 151–160); `normalizeInput` is called with the
default options, whose checksum mode is `'auto'`. -/
def formatUPC (code12 : List Char) : Except UPCError (List Char) :=
  let c := sanitize code12
  if c.length ≠ 12 then
    match normalizeInput c .auto with
    | .error e => .error e
    | .ok n => .ok (hyphenate n)
  else
    .ok (hyphenate c)

/-! ## Basic lemmas -/

theorem digitVal_lt_ten {c : Char} (h : c.isDigit = true) : digitVal c < 10 := by
  simp only [Char.isDigit, Bool.and_eq_true, decide_eq_true_eq] at h
  obtain ⟨h1, h2⟩ := h
  have hb : c.val.toNat ≤ 57 := UInt32.toNat_le_of_le (by decide) h2
  have ha : 48 ≤ c.val.toNat := UInt32.le_toNat_of_le (by decide) h1
  have h0 : ('0'.val).toNat = 48 := rfl
  simp only [digitVal, Char.toNat]
  omega

theorem digitVal_digitChar : ∀ n < 10, digitVal (Nat.digitChar n) = n := by decide

theorem isDigit_digitChar : ∀ n < 10, (Nat.digitChar n).isDigit = true := by decide

theorem calculateChecksum_lt_ten (s : List Char) : calculateChecksum s < 10 := by
  unfold calculateChecksum
  exact Nat.mod_lt _ (by norm_num)

theorem sanitize_mem_isDigit {s : List Char} {c : Char} (h : c ∈ sanitize s) :
    c.isDigit = true := List.of_mem_filter h

theorem sanitize_of_digits {l : List Char} (h : ∀ c ∈ l, c.isDigit = true) :
    sanitize l = l := List.filter_eq_self.mpr h

theorem padStart_length {s : List Char} (h : s.length ≤ 11) :
    (padStart 11 '0' s).length = 11 := by
  simp [padStart]
  omega

theorem code11of_length (s : List Char) : (code11of s).length = 11 := by
  unfold code11of
  simp only []
  split
  · next h => simp [List.length_take, padStart_length (Nat.le_of_lt h)]
  · next h => simp [List.length_take]; omega

/-! ## Branch computation lemmas for `normalizeInput` -/

theorem normalizeInput_len11 {code : List Char} (mode : ChecksumMode)
    (h : (sanitize code).length = 11) :
    normalizeInput code mode =
      .ok (sanitize code ++ [Nat.digitChar (calculateChecksum (sanitize code))]) := by
  simp [normalizeInput, h]

theorem normalizeInput_lt11 {code : List Char} (mode : ChecksumMode)
    (h : (sanitize code).length < 11) :
    normalizeInput code mode =
      .ok (padStart 11 '0' (sanitize code) ++
        [Nat.digitChar (calculateChecksum (padStart 11 '0' (sanitize code)))]) := by
  have h11 : ¬ (sanitize code).length = 11 := by omega
  have h12 : ¬ (sanitize code).length = 12 := by omega
  simp [normalizeInput, h, h11, h12]

theorem normalizeInput_gt12 {code : List Char} (mode : ChecksumMode)
    (h : 12 < (sanitize code).length) :
    normalizeInput code mode = .error .invalidLength := by
  have h11 : ¬ (sanitize code).length = 11 := by omega
  have h12 : ¬ (sanitize code).length = 12 := by omega
  have hlt : ¬ (sanitize code).length < 11 := by omega
  simp [normalizeInput, h11, h12, hlt]

theorem normalizeInput_len12_auto {code : List Char}
    (h : (sanitize code).length = 12) :
    normalizeInput code .auto =
      .ok ((sanitize code).take 11 ++
        [Nat.digitChar (calculateChecksum ((sanitize code).take 11))]) := by
  simp [normalizeInput, h]

theorem normalizeInput_len12_recalculate {code : List Char}
    (h : (sanitize code).length = 12) :
    normalizeInput code .recalculate =
      .ok ((sanitize code).take 11 ++
        [Nat.digitChar (calculateChecksum ((sanitize code).take 11))]) := by
  simp [normalizeInput, h]

theorem normalizeInput_len12_validate {code : List Char}
    (h : (sanitize code).length = 12) :
    normalizeInput code .validate =
      (if digitVal ((sanitize code).getD 11 '0') ≠
          calculateChecksum ((sanitize code).take 11) then
        .error (.invalidChecksum (calculateChecksum ((sanitize code).take 11))
          (digitVal ((sanitize code).getD 11 '0')))
      else .ok (sanitize code)) := by
  simp only [normalizeInput, h]
  norm_num

/-- Shape of every successful `normalizeInput` result whose 12th digit was
appended or overwritten: an 11-digit payload plus the computed check digit. -/
theorem append_check_inv {c11 : List Char} (h11 : c11.length = 11)
    (hd : ∀ c ∈ c11, c.isDigit = true) :
    (c11 ++ [Nat.digitChar (calculateChecksum c11)]).length = 12 ∧
    (∀ c ∈ c11 ++ [Nat.digitChar (calculateChecksum c11)], c.isDigit = true) ∧
    digitVal ((c11 ++ [Nat.digitChar (calculateChecksum c11)]).getD 11 '0') =
      calculateChecksum
        ((c11 ++ [Nat.digitChar (calculateChecksum c11)]).take 11) := by
  refine ⟨by simp [h11], ?_, ?_⟩
  · intro c hc
    rcases List.mem_append.mp hc with hc | hc
    · exact hd c hc
    · simp only [List.mem_singleton] at hc
      subst hc
      exact isDigit_digitChar _ (calculateChecksum_lt_ten c11)
  · rw [List.take_left' h11]
    rw [List.getD_eq_getElem?_getD, List.getElem?_append_right (by omega), h11]
    simp [digitVal_digitChar _ (calculateChecksum_lt_ten c11)]

/-- Invariant of every successful normalization: 12 digit characters whose
last digit is the checksum of the first 11. -/
theorem normalizeInput_ok_inv {code r : List Char} {mode : ChecksumMode}
    (h : normalizeInput code mode = .ok r) :
    r.length = 12 ∧ (∀ c ∈ r, c.isDigit = true) ∧
    digitVal (r.getD 11 '0') = calculateChecksum (r.take 11) := by
  rcases Nat.lt_trichotomy (sanitize code).length 11 with hlt | h11 | hgt
  · rw [normalizeInput_lt11 mode hlt] at h
    obtain rfl : _ = r := Except.ok.inj h
    refine append_check_inv (padStart_length (Nat.le_of_lt hlt)) ?_
    intro c hc
    rcases List.mem_append.mp hc with hc | hc
    · simp only [List.eq_of_mem_replicate hc]
      decide
    · exact sanitize_mem_isDigit hc
  · rw [normalizeInput_len11 mode h11] at h
    obtain rfl : _ = r := Except.ok.inj h
    exact append_check_inv h11 (fun c hc => sanitize_mem_isDigit hc)
  · rcases Nat.lt_trichotomy (sanitize code).length 12 with h12 | h12 | h12
    · omega
    · have htake : ((sanitize code).take 11).length = 11 := by
        simp [List.length_take, h12]
      have hdig : ∀ c ∈ (sanitize code).take 11, c.isDigit = true :=
        fun c hc => sanitize_mem_isDigit (List.mem_of_mem_take hc)
      cases mode with
      | auto =>
          rw [normalizeInput_len12_auto h12] at h
          obtain rfl : _ = r := Except.ok.inj h
          exact append_check_inv htake hdig
      | recalculate =>
          rw [normalizeInput_len12_recalculate h12] at h
          obtain rfl : _ = r := Except.ok.inj h
          exact append_check_inv htake hdig
      | validate =>
          rw [normalizeInput_len12_validate h12] at h
          split at h
          · exact absurd h (by simp)
          · next hne =>
            obtain rfl : _ = r := Except.ok.inj h
            push_neg at hne
            refine ⟨h12, fun c hc => sanitize_mem_isDigit hc, hne⟩
    · rw [normalizeInput_gt12 mode h12] at h
      exact absurd h (by simp)

theorem foldl_range_add (g : Nat → Nat) (n : Nat) :
    (List.range n).foldl (fun acc i => acc + g i) 0 = ∑ i ∈ Finset.range n, g i := by
  induction n with
  | zero => simp
  | succ n ih =>
      rw [List.range_succ, List.foldl_append, Finset.sum_range_succ, ih]
      rfl

end UPCA

namespace UPCA

/-- C3: `calculateChecksum` preprocesses its input through the
sanitize/pad/truncate step (always yielding exactly 11 digits), returns the
mod-10 complement of the 3/1-weighted digit sum, always lands in `[0,9]`,
and maps `"01234567890"` to `5`. -/
theorem checksum_weighted_mod10 (s : List Char) :
    calculateChecksum s < 10 ∧ (code11of s).length = 11 ∧
    calculateChecksum s =
      (10 - ((∑ i ∈ Finset.range 11,
        digitVal ((code11of s).getD i '0') * (if i % 2 = 0 then 3 else 1)) % 10)) % 10 ∧
    calculateChecksum "01234567890".data = 5 := by
  refine ⟨calculateChecksum_lt_ten s, code11of_length s, ?_, by decide⟩
  unfold calculateChecksum
  simp only []
  rw [foldl_range_add (fun i => digitVal ((code11of s).getD i '0') * weight i) 11]
  simp only [weight]

/-- C5: the `'auto'` and `'recalculate'` checksum policies are behaviorally
identical, and on 12-digit input both overwrite the 12th digit with the
computed check digit. -/
theorem auto_eq_recalculate (code : List Char) :
    normalizeInput code .auto = normalizeInput code .recalculate ∧
    ((sanitize code).length = 12 →
      normalizeInput code .auto =
        .ok ((sanitize code).take 11 ++
          [Nat.digitChar (calculateChecksum ((sanitize code).take 11))])) := by
  constructor
  · have hc : (sanitize code).length < 11 ∨ (sanitize code).length = 11 ∨
        (sanitize code).length = 12 ∨ 12 < (sanitize code).length := by omega
    rcases hc with h | h | h | h
    · rw [normalizeInput_lt11 _ h, normalizeInput_lt11 _ h]
    · rw [normalizeInput_len11 _ h, normalizeInput_len11 _ h]
    · rw [normalizeInput_len12_auto h, normalizeInput_len12_recalculate h]
    · rw [normalizeInput_gt12 _ h, normalizeInput_gt12 _ h]
  · intro h
    exact normalizeInput_len12_auto h

/-- C5 witness: on a 12-digit input with a wrong check digit both policies
agree and overwrite the final digit with the computed `5`. -/
theorem auto_eq_recalculate_witness :
    normalizeInput "012345678900".data .auto =
      normalizeInput "012345678900".data .recalculate ∧
    normalizeInput "012345678900".data .auto = .ok "012345678905".data := by
  refine ⟨(auto_eq_recalculate _).1, ?_⟩
  rw [(auto_eq_recalculate "012345678900".data).2 (by decide)]
  rfl

/-- C6: re-validating a freshly normalized code never fails and returns it
unchanged: the 12th digit of any `normalizeInput` output is the checksum of
its first 11 digits. -/
theorem normalize_then_validate (code r : List Char)
    (h : normalizeInput code .auto = .ok r) :
    normalizeInput r .validate = .ok r := by
  obtain ⟨hlen, hdig, hchk⟩ := normalizeInput_ok_inv h
  have hs : sanitize r = r := sanitize_of_digits hdig
  have h12 : (sanitize r).length = 12 := by rw [hs]; exact hlen
  rw [normalizeInput_len12_validate h12, hs]
  rw [if_neg (not_ne_iff.mpr hchk)]

/-- C6 witness: normalizing `"01234567890"` yields `"012345678905"`, which
then validates to itself. -/
theorem normalize_then_validate_witness :
    normalizeInput "012345678905".data .validate = .ok "012345678905".data :=
  normalize_then_validate "01234567890".data "012345678905".data (by rfl)

/-- C1 counterexample: an input with zero digits does not fail — the
`length < 11` path pads the empty string to `"00000000000"` and appends the
computed check digit, returning `"000000000000"`. -/
theorem empty_input_succeeds :
    (sanitize "".data).length = 0 ∧
    normalizeInput "".data .auto = .ok "000000000000".data := by
  constructor <;> rfl

/-- C1 (amended): `normalizeInput` fails with the `InvalidLength` error
(whose message contains `"requires 11 or 12 digits"`) iff the sanitized
length exceeds 12; every sanitized length from 0 through 11 returns a
12-digit code, and length 12 returns a 12-digit code except under the
`'validate'` policy with a mismatched check digit, which fails with
`InvalidChecksum`. -/
theorem invalid_length_iff (code : List Char) (mode : ChecksumMode) :
    (normalizeInput code mode = .error .invalidLength ↔
      12 < (sanitize code).length) ∧
    "requires 11 or 12 digits".data <:+: UPCError.invalidLength.message ∧
    ((sanitize code).length ≤ 11 →
      ∃ r, normalizeInput code mode = .ok r ∧ r.length = 12) ∧
    ((sanitize code).length = 12 →
      (∃ r, normalizeInput code mode = .ok r ∧ r.length = 12) ∨
      (mode = .validate ∧
        normalizeInput code mode =
          .error (.invalidChecksum (calculateChecksum ((sanitize code).take 11))
            (digitVal ((sanitize code).getD 11 '0'))))) := by
  have hsucc : (sanitize code).length ≤ 11 →
      ∃ r, normalizeInput code mode = .ok r ∧ r.length = 12 := by
    intro hle
    rcases Nat.lt_or_ge (sanitize code).length 11 with hlt | hge
    · exact ⟨_, normalizeInput_lt11 mode hlt, by
        simp [padStart_length (Nat.le_of_lt hlt)]⟩
    · have h11 : (sanitize code).length = 11 := by omega
      exact ⟨_, normalizeInput_len11 mode h11, by simp [h11]⟩
  refine ⟨⟨?_, fun h => normalizeInput_gt12 mode h⟩,
    ⟨"UPC-A ".data, [], by rfl⟩, hsucc, ?_⟩
  · intro h
    by_contra hle
    push_neg at hle
    rcases Nat.lt_or_ge (sanitize code).length 12 with hlt | hge
    · obtain ⟨r, hr, -⟩ := hsucc (by omega)
      rw [hr] at h
      exact Except.noConfusion h
    · have h12 : (sanitize code).length = 12 := by omega
      cases mode with
      | auto =>
          rw [normalizeInput_len12_auto h12] at h
          exact Except.noConfusion h
      | recalculate =>
          rw [normalizeInput_len12_recalculate h12] at h
          exact Except.noConfusion h
      | validate =>
          rw [normalizeInput_len12_validate h12] at h
          split at h
          · exact UPCError.noConfusion (Except.error.inj h)
          · exact Except.noConfusion h
  · intro h12
    cases mode with
    | auto =>
        exact .inl ⟨_, normalizeInput_len12_auto h12, by
          simp [List.length_take, h12]⟩
    | recalculate =>
        exact .inl ⟨_, normalizeInput_len12_recalculate h12, by
          simp [List.length_take, h12]⟩
    | validate =>
        rw [normalizeInput_len12_validate h12]
        split
        · exact .inr ⟨rfl, rfl⟩
        · exact .inl ⟨_, rfl, h12⟩

/-- C1 witness: a 13-digit input fails with `InvalidLength`. -/
theorem invalid_length_witness :
    normalizeInput "1234567890123".data .auto = .error .invalidLength ∧
    12 < (sanitize "1234567890123".data).length :=
  ⟨(invalid_length_iff "1234567890123".data .auto).1.mpr (by decide), by decide⟩

/-- The error message of `InvalidChecksum` carries both the expected and the
provided digit. -/
theorem checksum_message_digits (e p : Nat) :
    (toString e).data <:+: (UPCError.invalidChecksum e p).message ∧
    (toString p).data <:+: (UPCError.invalidChecksum e p).message := by
  constructor
  · exact ⟨"Invalid UPC-A checksum: expected ".data,
      ", got ".data ++ (toString p).data, by simp [UPCError.message]⟩
  · exact ⟨"Invalid UPC-A checksum: expected ".data ++ (toString e).data
      ++ ", got ".data, [], by simp [UPCError.message]⟩

/-- C4: under the `'validate'` policy a 12-digit input fails with
`InvalidChecksum` — whose message contains both the expected and the provided
digit — exactly when the provided 12th digit differs from the checksum of the
first 11, and is returned unchanged when they agree. -/
theorem validate_policy (code : List Char)
    (h12 : (sanitize code).length = 12) :
    (digitVal ((sanitize code).getD 11 '0') ≠
        calculateChecksum ((sanitize code).take 11) →
      normalizeInput code .validate =
        .error (.invalidChecksum (calculateChecksum ((sanitize code).take 11))
          (digitVal ((sanitize code).getD 11 '0'))) ∧
      (toString (calculateChecksum ((sanitize code).take 11))).data <:+:
        (UPCError.invalidChecksum (calculateChecksum ((sanitize code).take 11))
          (digitVal ((sanitize code).getD 11 '0'))).message ∧
      (toString (digitVal ((sanitize code).getD 11 '0'))).data <:+:
        (UPCError.invalidChecksum (calculateChecksum ((sanitize code).take 11))
          (digitVal ((sanitize code).getD 11 '0'))).message) ∧
    (digitVal ((sanitize code).getD 11 '0') =
        calculateChecksum ((sanitize code).take 11) →
      normalizeInput code .validate = .ok (sanitize code)) := by
  constructor
  · intro hne
    refine ⟨?_, (checksum_message_digits _ _).1, (checksum_message_digits _ _).2⟩
    rw [normalizeInput_len12_validate h12, if_pos hne]
  · intro heq
    rw [normalizeInput_len12_validate h12, if_neg (not_ne_iff.mpr heq)]

/-- C4 witness: `"012345678900"` has provided digit 0 but expected digit 5,
so validation fails with the `InvalidChecksum` error naming both. -/
theorem validate_policy_witness :
    normalizeInput "012345678900".data .validate =
      .error (.invalidChecksum 5 0) ∧
    "5".data <:+: (UPCError.invalidChecksum 5 0).message ∧
    "0".data <:+: (UPCError.invalidChecksum 5 0).message := by
  have h := (validate_policy "012345678900".data (by decide)).1 (by decide)
  exact h

/-! ## Encoding lemmas -/

theorem getD_mem {l : List Char} {n : Nat} (h : n < l.length) (d : Char) :
    l.getD n d ∈ l := by
  rw [List.getD_eq_getElem?_getD, List.getElem?_eq_getElem h]
  exact List.getElem_mem h

theorem mem_binary_of_all {l : List Char}
    (h : l.all (fun c => c == '0' || c == '1') = true) {c : Char}
    (hc : c ∈ l) : c = '0' ∨ c = '1' := by
  have hb := List.all_eq_true.mp h c hc
  simpa using hb

theorem lcode_facts : ∀ d < 10, (L_CODES.getD d []).length = 7 ∧
    (L_CODES.getD d []).all (fun c => c == '0' || c == '1') = true := by decide

theorem rcode_facts : ∀ d < 10, (R_CODES.getD d []).length = 7 ∧
    (R_CODES.getD d []).all (fun c => c == '0' || c == '1') = true := by decide

theorem length_flatten_eq {l : List (List Char)} {n : Nat}
    (h : ∀ x ∈ l, x.length = n) : l.flatten.length = l.length * n := by
  induction l with
  | nil => simp
  | cons a t ih =>
      simp only [List.flatten_cons, List.length_append, List.length_cons]
      rw [h a (by simp), ih (fun x hx => h x (by simp [hx]))]
      ring

/-- Length and slice structure of the assembled pattern, for any 42-module
left and right halves. -/
theorem guard_slices (L R : List Char) (hL : L.length = 42)
    (hR : R.length = 42) :
    ("101".data ++ L ++ "01010".data ++ R ++ "101".data).length = 95 ∧
    ("101".data ++ L ++ "01010".data ++ R ++ "101".data).take 3 = "101".data ∧
    (("101".data ++ L ++ "01010".data ++ R ++ "101".data).drop 45).take 5 =
      "01010".data ∧
    ("101".data ++ L ++ "01010".data ++ R ++ "101".data).drop 92 =
      "101".data := by
  have eA : "101".data ++ L ++ "01010".data ++ R ++ "101".data =
      "101".data ++ (L ++ ("01010".data ++ (R ++ "101".data))) := by
    simp [List.append_assoc]
  have eB : "101".data ++ L ++ "01010".data ++ R ++ "101".data =
      ("101".data ++ L) ++ ("01010".data ++ (R ++ "101".data)) := by
    simp [List.append_assoc]
  have eC : "101".data ++ L ++ "01010".data ++ R ++ "101".data =
      (("101".data ++ L) ++ ("01010".data ++ R)) ++ "101".data := by
    simp [List.append_assoc]
  refine ⟨?_, ?_, ?_, ?_⟩
  · simp only [List.length_append, hL, hR]
    decide
  · rw [eA]
    exact List.take_left' rfl
  · rw [eB, List.drop_left' (by simp only [List.length_append, hL]; decide)]
    exact List.take_left' rfl
  · rw [eC]
    exact List.drop_left' (by simp only [List.length_append, hL, hR]; decide)

/-- Every successful `encode` yields a 95-module binary pattern with the
three guard patterns at their standard positions. -/
theorem encode_ok_parts {code : List Char} {mode : ChecksumMode}
    {enc fc : List Char} (h : encode code mode = .ok (enc, fc)) :
    enc.length = 95 ∧ (∀ c ∈ enc, c = '0' ∨ c = '1') ∧
    enc.take 3 = "101".data ∧ (enc.drop 45).take 5 = "01010".data ∧
    enc.drop 92 = "101".data := by
  cases hn : normalizeInput code mode with
  | error e =>
      rw [encode, hn] at h
      exact Except.noConfusion h
  | ok fullCode =>
      rw [encode, hn] at h
      simp only [Except.ok.injEq, Prod.mk.injEq] at h
      obtain ⟨hlen12, hdig, -⟩ := normalizeInput_ok_inv hn
      obtain ⟨hpat, -⟩ := h
      have hdv : ∀ i, i < 12 → digitVal (fullCode.getD i '0') < 10 :=
        fun i hi => digitVal_lt_ten (hdig _ (getD_mem (by omega) '0'))
      have hL : (((List.range 6).map
          (fun i => L_CODES.getD (digitVal (fullCode.getD i '0')) [])).flatten).length
          = 42 := by
        rw [length_flatten_eq (n := 7)]
        · simp
        · intro x hx
          simp only [List.mem_map, List.mem_range] at hx
          obtain ⟨i, hi, rfl⟩ := hx
          exact (lcode_facts _ (hdv i (by omega))).1
      have hR : (((List.range 6).map
          (fun k => R_CODES.getD (digitVal (fullCode.getD (k + 6) '0')) [])).flatten).length
          = 42 := by
        rw [length_flatten_eq (n := 7)]
        · simp
        · intro x hx
          simp only [List.mem_map, List.mem_range] at hx
          obtain ⟨k, hk, rfl⟩ := hx
          exact (rcode_facts _ (hdv (k + 6) (by omega))).1
      have hLb : ∀ c ∈ ((List.range 6).map
          (fun i => L_CODES.getD (digitVal (fullCode.getD i '0')) [])).flatten,
          c = '0' ∨ c = '1' := by
        intro c hc
        obtain ⟨x, hx, hcx⟩ := List.mem_flatten.mp hc
        simp only [List.mem_map, List.mem_range] at hx
        obtain ⟨i, hi, rfl⟩ := hx
        exact mem_binary_of_all (lcode_facts _ (hdv i (by omega))).2 hcx
      have hRb : ∀ c ∈ ((List.range 6).map
          (fun k => R_CODES.getD (digitVal (fullCode.getD (k + 6) '0')) [])).flatten,
          c = '0' ∨ c = '1' := by
        intro c hc
        obtain ⟨x, hx, hcx⟩ := List.mem_flatten.mp hc
        simp only [List.mem_map, List.mem_range] at hx
        obtain ⟨k, hk, rfl⟩ := hx
        exact mem_binary_of_all (rcode_facts _ (hdv (k + 6) (by omega))).2 hcx
      obtain ⟨hlen, htake, hmid, hdrop⟩ := guard_slices _ _ hL hR
      subst hpat
      refine ⟨hlen, ?_, htake, hmid, hdrop⟩
      intro c hc
      simp only [List.mem_append] at hc
      rcases hc with ((((hc | hc) | hc) | hc) | hc)
      · exact mem_binary_of_all (by decide) hc
      · exact hLb c hc
      · exact mem_binary_of_all (by decide) hc
      · exact hRb c hc
      · exact mem_binary_of_all (by decide) hc

/-- C2: whenever normalization succeeds, the pattern returned by `encode`
has exactly 95 characters, all of them `'0'` or `'1'`, with start guard
`101` at indices 0–2, center guard `01010` at indices 45–49, and end guard
`101` at indices 92–94. -/
theorem encode_pattern_invariants (code : List Char) (mode : ChecksumMode)
    (enc fc : List Char) (h : encode code mode = .ok (enc, fc)) :
    enc.length = 95 ∧ (∀ c ∈ enc, c = '0' ∨ c = '1') ∧
    enc.take 3 = "101".data ∧ (enc.drop 45).take 5 = "01010".data ∧
    enc.drop 92 = "101".data :=
  encode_ok_parts h

/-- C2 witness: the concrete 95-module pattern of `"01234567890"`. -/
theorem encode_pattern_invariants_witness :
    encode "01234567890".data .auto =
      .ok ("10100011010011001001001101111010100011011000101010101000010001001001000111010011100101001110101".data,
        "012345678905".data) ∧
    ("10100011010011001001001101111010100011011000101010101000010001001001000111010011100101001110101".data.length = 95 ∧
      (∀ c ∈ "10100011010011001001001101111010100011011000101010101000010001001001000111010011100101001110101".data,
        c = '0' ∨ c = '1') ∧
      "10100011010011001001001101111010100011011000101010101000010001001001000111010011100101001110101".data.take 3 = "101".data ∧
      ("10100011010011001001001101111010100011011000101010101000010001001001000111010011100101001110101".data.drop 45).take 5 = "01010".data ∧
      "10100011010011001001001101111010100011011000101010101000010001001001000111010011100101001110101".data.drop 92 = "101".data) :=
  ⟨by rfl, encode_pattern_invariants "01234567890".data .auto _ _ (by rfl)⟩

/-- Character-wise complement that swaps `'0'` and `'1'` — the relationship
the spec asserts (composed with reversal) between the L and R code tables. -/
def complementBit (c : Char) : Char :=
  if c = '0' then '1' else if c = '1' then '0' else c

/-- C7 counterexample: `R_CODES[0]` is not the complement of the reversal of
`L_CODES[0]` (complement of `1011000` is `0100111`, but `R_CODES[0]` is
`1110010`). -/
theorem rcode_not_complement_reverse :
    R_CODES.getD 0 [] ≠ (L_CODES.getD 0 []).reverse.map complementBit := by
  decide

/-- C7 (amended): each 7-character `R_CODES` entry is the character-wise
complement of the corresponding `L_CODES` entry, in the same order (no
reversal). -/
theorem rcode_complement_of_lcode : ∀ d, d < 10 →
    (R_CODES.getD d []).length = 7 ∧
    R_CODES.getD d [] = (L_CODES.getD d []).map complementBit := by
  decide

/-- C7 witness: the relationship at digit 3. -/
theorem rcode_complement_witness :
    (R_CODES.getD 3 []).length = 7 ∧
    R_CODES.getD 3 [] = (L_CODES.getD 3 []).map complementBit :=
  rcode_complement_of_lcode 3 (by decide)

/-- C10: an input that sanitizes to exactly 12 digits is formatted verbatim
in 1-5-5-1 hyphen groups, bypassing the normalizer — no checksum check or
correction happens. -/
theorem format_verbatim (code : List Char)
    (h : (sanitize code).length = 12) :
    formatUPC code = .ok ((sanitize code).take 1 ++ "-".data
      ++ ((sanitize code).drop 1).take 5 ++ "-".data
      ++ ((sanitize code).drop 6).take 5 ++ "-".data
      ++ (sanitize code).drop 11) := by
  simp [formatUPC, hyphenate, h]

/-- C10 witness: `"012345678900"` has a wrong check digit (5 expected, 0
provided) yet is formatted verbatim with its final `0`. -/
theorem format_verbatim_witness :
    formatUPC "012345678900".data = .ok "0-12345-67890-0".data ∧
    digitVal ((sanitize "012345678900".data).getD 11 '0') ≠
      calculateChecksum ((sanitize "012345678900".data).take 11) := by
  refine ⟨?_, by decide⟩
  rw [format_verbatim "012345678900".data (by decide)]
  rfl

/-! ## Rendering geometry and bar drawing

JavaScript numbers in the layout math are modelled as exact rationals; the
color and font options play no role in geometry and are omitted.  The bar
loop's running `x`, which increases by `moduleWidth` every iteration, is
written in closed form as `barcodeStartX + i * moduleWidth`. -/

/-- The `style` option: `'notched' | 'flat'`. -/
inductive BarStyle where
  | notched
  | flat
deriving DecidableEq

/-- The numeric and enumerated options consumed by the renderers, merged
over `DEFAULTS` (source lines 197–215, 234). -/
structure RenderOptions where
  moduleWidth : ℚ
  height : ℚ
  guardExtend : ℚ
  fontSize : ℚ
  smallDigitFontSize : ℚ
  textMargin : ℚ
  quietZone : ℚ
  outerDigitGap : ℚ
  paddingLeft : ℚ
  paddingRight : ℚ
  paddingTop : ℚ
  paddingBottom : ℚ
  style : BarStyle
  checksum : ChecksumMode
deriving DecidableEq

/-- The documented default options. -/
def DEFAULTS : RenderOptions :=
  ⟨2, 70, 10, 14, 10, 2, 9, 2, 0, 0, 0, 0, .notched, .auto⟩

/-- The total canvas/SVG dimensions computed by a renderer. -/
structure Geometry where
  totalWidth : ℚ
  totalHeight : ℚ
deriving DecidableEq

/-- One filled bar rectangle: position, width and height. -/
structure Bar where
  x : ℚ
  y : ℚ
  w : ℚ
  h : ℚ
deriving DecidableEq

/-- `(i < 3) || (i >= 45 && i < 50) || (i >= 92)` (source lines 282, 416). -/
def isGuard (i : Nat) : Bool :=
  decide (i < 3) || (decide (45 ≤ i) && decide (i < 50)) || decide (92 ≤ i)

/-- The dimension computation of `render` (source lines 243–260). -/
def render_geometry (code : List Char) (opts : RenderOptions) :
    Except UPCError Geometry :=
  match encode code opts.checksum with
  | .error e => .error e
  | .ok (encoding, _fullCode) =>
    let barcodeWidth := (encoding.length : ℚ) * opts.moduleWidth
    let guardHeight := if opts.style = .notched
      then opts.height + opts.guardExtend else opts.height
    let quietZonePx := opts.quietZone * opts.moduleWidth
    let outerDigitWidth := opts.smallDigitFontSize * 0.7
    let leftOuterSpace := outerDigitWidth + opts.outerDigitGap
    let rightOuterSpace := outerDigitWidth + opts.outerDigitGap
    let contentWidth := leftOuterSpace + quietZonePx + barcodeWidth
      + quietZonePx + rightOuterSpace
    let contentHeight := guardHeight + opts.fontSize + opts.textMargin
    .ok ⟨contentWidth + opts.paddingLeft + opts.paddingRight,
      contentHeight + opts.paddingTop + opts.paddingBottom⟩

/-- The dimension computation of `renderSVG` (source lines 382–395). -/
def renderSVG_geometry (code : List Char) (opts : RenderOptions) :
    Except UPCError Geometry :=
  match encode code opts.checksum with
  | .error e => .error e
  | .ok (encoding, _fullCode) =>
    let barcodeWidth := (encoding.length : ℚ) * opts.moduleWidth
    let guardHeight := if opts.style = .notched
      then opts.height + opts.guardExtend else opts.height
    let quietZonePx := opts.quietZone * opts.moduleWidth
    let outerDigitWidth := opts.smallDigitFontSize * 0.7
    let leftOuterSpace := outerDigitWidth + opts.outerDigitGap
    let rightOuterSpace := outerDigitWidth + opts.outerDigitGap
    let contentWidth := leftOuterSpace + quietZonePx + barcodeWidth
      + quietZonePx + rightOuterSpace
    let contentHeight := guardHeight + opts.fontSize + opts.textMargin
    .ok ⟨contentWidth + opts.paddingLeft + opts.paddingRight,
      contentHeight + opts.paddingTop + opts.paddingBottom⟩

/-- The bar loop of `render` (source lines 272–289): entry `i` is the
rectangle filled for module `i`, or `none` when the pattern bit is `'0'`. -/
def render_bars (code : List Char) (opts : RenderOptions) :
    Except UPCError (List (Option Bar)) :=
  match encode code opts.checksum with
  | .error e => .error e
  | .ok (encoding, _fullCode) =>
    let guardHeight := if opts.style = .notched
      then opts.height + opts.guardExtend else opts.height
    let quietZonePx := opts.quietZone * opts.moduleWidth
    let leftOuterSpace := opts.smallDigitFontSize * 0.7 + opts.outerDigitGap
    let barcodeStartX := opts.paddingLeft + leftOuterSpace + quietZonePx
    let offsetY := opts.paddingTop
    .ok ((List.range encoding.length).map (fun i =>
      if encoding.getD i '0' = '1' then
        some ⟨barcodeStartX + (i : ℚ) * opts.moduleWidth, offsetY,
          opts.moduleWidth,
          if opts.style = .notched ∧ isGuard i = true
            then guardHeight else opts.height⟩
      else none))

/-- The bar loop of `renderSVG` (source lines 410–429). -/
def renderSVG_bars (code : List Char) (opts : RenderOptions) :
    Except UPCError (List (Option Bar)) :=
  match encode code opts.checksum with
  | .error e => .error e
  | .ok (encoding, _fullCode) =>
    let guardHeight := if opts.style = .notched
      then opts.height + opts.guardExtend else opts.height
    let quietZonePx := opts.quietZone * opts.moduleWidth
    let leftOuterSpace := opts.smallDigitFontSize * 0.7 + opts.outerDigitGap
    let barcodeStartX := opts.paddingLeft + leftOuterSpace + quietZonePx
    let offsetY := opts.paddingTop
    .ok ((List.range encoding.length).map (fun i =>
      if encoding.getD i '0' = '1' then
        some ⟨barcodeStartX + (i : ℚ) * opts.moduleWidth, offsetY,
          opts.moduleWidth,
          if opts.style = .notched ∧ isGuard i = true
            then guardHeight else opts.height⟩
      else none))

theorem isGuard_iff {i : Nat} (h : i < 95) :
    isGuard i = true ↔ (i < 3 ∨ (45 ≤ i ∧ i ≤ 49) ∨ (92 ≤ i ∧ i ≤ 94)) := by
  simp only [isGuard, Bool.or_eq_true, Bool.and_eq_true, decide_eq_true_eq]
  omega

/-- C8: the raster and vector renderers compute identical total dimensions,
equal to the documented closed forms (the pattern contributes its 95 modules
to the width; the guard extension enters the height only for the notched
style). -/
theorem geometry_cross_backend (code : List Char) (opts : RenderOptions)
    (g : Geometry) (h : render_geometry code opts = .ok g) :
    renderSVG_geometry code opts = .ok g ∧
    g.totalWidth = (opts.smallDigitFontSize * 0.7 + opts.outerDigitGap) +
      opts.quietZone * opts.moduleWidth + 95 * opts.moduleWidth +
      opts.quietZone * opts.moduleWidth +
      (opts.smallDigitFontSize * 0.7 + opts.outerDigitGap) +
      opts.paddingLeft + opts.paddingRight ∧
    g.totalHeight = (if opts.style = .notched
        then opts.height + opts.guardExtend else opts.height) +
      opts.fontSize + opts.textMargin + opts.paddingTop + opts.paddingBottom := by
  have hsvg : renderSVG_geometry code opts = render_geometry code opts := rfl
  refine ⟨hsvg.trans h, ?_⟩
  cases he : encode code opts.checksum with
  | error e =>
      rw [render_geometry, he] at h
      exact Except.noConfusion h
  | ok p =>
      obtain ⟨penc, pfc⟩ := p
      have h95 : penc.length = 95 := (encode_ok_parts he).1
      rw [render_geometry, he] at h
      simp only [] at h
      obtain rfl := Except.ok.inj h
      rw [h95]
      constructor
      · push_cast
        ring
      · ring

set_option maxRecDepth 10000 in
/-- C8 witness: with the default options and code `"01234567890"` both
renderers report a 244 × 96 geometry. -/
theorem geometry_cross_backend_witness :
    render_geometry "01234567890".data DEFAULTS = .ok ⟨244, 96⟩ ∧
    renderSVG_geometry "01234567890".data DEFAULTS = .ok ⟨244, 96⟩ := by
  have e : render_geometry "01234567890".data DEFAULTS =
      .ok ⟨10 * 0.7 + 2 + 9 * 2 + ((95 : ℕ) : ℚ) * 2 + 9 * 2 + (10 * 0.7 + 2)
        + 0 + 0, 70 + 10 + 14 + 2 + 0 + 0⟩ := rfl
  have h : render_geometry "01234567890".data DEFAULTS = .ok ⟨244, 96⟩ := by
    rw [e]
    norm_num
  exact ⟨h, (geometry_cross_backend "01234567890".data DEFAULTS ⟨244, 96⟩ h).1⟩

/-- C9: both renderers draw the same bars, and a drawn bar's height is
`height + guardExtend` exactly when the style is notched and its module
index is in a guard region (0–2, 45–49, 92–94), and `height` otherwise —
so the flat style never draws a bar taller than `height`. -/
theorem bar_heights (code : List Char) (opts : RenderOptions)
    (bars : List (Option Bar)) (i : Nat) (b : Bar)
    (h : render_bars code opts = .ok bars)
    (hb : bars.getD i none = some b) :
    renderSVG_bars code opts = .ok bars ∧
    b.h = if opts.style = .notched ∧
        (i < 3 ∨ (45 ≤ i ∧ i ≤ 49) ∨ (92 ≤ i ∧ i ≤ 94))
      then opts.height + opts.guardExtend else opts.height := by
  have hsvg : renderSVG_bars code opts = render_bars code opts := rfl
  refine ⟨hsvg.trans h, ?_⟩
  cases he : encode code opts.checksum with
  | error e =>
      rw [render_bars, he] at h
      exact Except.noConfusion h
  | ok p =>
      obtain ⟨penc, pfc⟩ := p
      have h95 : penc.length = 95 := (encode_ok_parts he).1
      rw [render_bars, he] at h
      simp only [] at h
      obtain rfl := Except.ok.inj h
      rw [List.getD_eq_getElem?_getD, List.getElem?_map] at hb
      by_cases hi : i < penc.length
      · rw [List.getElem?_range hi] at hb
        simp only [Option.map_some', Option.getD_some] at hb
        by_cases hbit : penc.getD i '0' = '1'
        · rw [if_pos hbit] at hb
          obtain rfl := (Option.some.inj hb).symm
          have hg := isGuard_iff (i := i) (by omega)
          by_cases hs : opts.style = BarStyle.notched
          · simp [hs, hg]
          · simp [hs]
        · rw [if_neg hbit] at hb
          exact Option.noConfusion hb
      · rw [List.getElem?_eq_none (by simp only [List.length_range]; omega)] at hb
        simp only [Option.map_none', Option.getD_none] at hb
        exact Option.noConfusion hb

set_option maxRecDepth 10000 in
/-- C9 witness: with the defaults, module 0 (a notched guard bar) of
`"01234567890"` is drawn at x = 27 with height 70 + 10 = 80. -/
theorem bar_heights_witness :
    renderSVG_bars "01234567890".data DEFAULTS =
      .ok ((render_bars "01234567890".data DEFAULTS).toOption.getD []) ∧
    Bar.h ⟨27, 0, 2, 80⟩ = if DEFAULTS.style = .notched ∧
        ((0 : Nat) < 3 ∨ (45 ≤ (0 : Nat) ∧ (0 : Nat) ≤ 49) ∨
          (92 ≤ (0 : Nat) ∧ (0 : Nat) ≤ 94))
      then DEFAULTS.height + DEFAULTS.guardExtend else DEFAULTS.height := by
  have e0 : ((render_bars "01234567890".data DEFAULTS).toOption.getD []).getD
      0 none = some ⟨0 + (10 * 0.7 + 2) + 9 * 2 + ((0 : ℕ) : ℚ) * 2, 0, 2,
        70 + 10⟩ := rfl
  have hb : ((render_bars "01234567890".data DEFAULTS).toOption.getD []).getD
      0 none = some ⟨27, 0, 2, 80⟩ := by
    rw [e0]
    norm_num
  exact bar_heights "01234567890".data DEFAULTS
    ((render_bars "01234567890".data DEFAULTS).toOption.getD [])
    0 ⟨27, 0, 2, 80⟩ (by rfl) hb

end UPCA
